import Mathlib

/-!
# Verification of the balloontracker core pipeline

Shallow embedding of the balloontracker repository (`gbt.py`, `predictor.py`):
the trajectory-table builder (`fetch_balloon_data`), the alert engine
(`generate_alerts`), and the predictor (`train_and_save_models`,
`predict_trajectory`).  Floating-point columns are modelled by `ℚ`,
pandas `NaN` entries in the derived `vertical_speed` column by `Option ℚ`,
and the two persisted scikit-learn `LinearRegression` models by explicit
coefficient/intercept records.
-/

namespace BT

/-- A JSON value, as decoded by `r.json()` in `fetch_balloon_data`.
Only the shape matters for the point-validity check
`isinstance(point, list) and len(point) == 3`. -/
inductive JVal where
  | num (q : ℚ)
  | str (s : String)
  | bool (b : Bool)
  | null
  | arr (xs : List JVal)

/-- The point filter of `gbt.py` line 24:
`isinstance(point, list) and len(point) == 3` (element types are NOT checked). -/
def codeValidPoint : JVal → Bool
  | .arr xs => xs.length == 3
  | _ => false

/-- Whether a JSON value is a number. -/
def isNumVal : JVal → Bool
  | .num _ => true
  | _ => false

/-- The spec notion of a structurally valid point: a 3-element NUMERIC triple
(spec section 4.1: "A malformed individual point (not a 3-element numeric
triple) is skipped").  Used only to compare the spec wording against the
code's `codeValidPoint`. -/
def specValidTriple : JVal → Bool
  | .arr xs => xs.length == 3 && xs.all isNumVal
  | _ => false

/-- One raw record appended by the loop of `fetch_balloon_data`
(gbt.py lines 23-33): the unpacked `lat, lon, alt = point` together with
the hour and the enumeration index `i` used as the balloon id. -/
structure RawRec where
  time_hour_ago : Nat
  lat : JVal
  lon : JVal
  alt : JVal
  id : Nat

/-- gbt.py lines 23-33: `for i, point in enumerate(data)`, skipping points
that are not 3-element lists, keeping their siblings, with `i` the index in
the ORIGINAL array (malformed points still consume an index). -/
def snapshotRecords (hour : Nat) : Nat → List JVal → List RawRec
  | _, [] => []
  | i, .arr [a, b, c] :: ps => ⟨hour, a, b, c, i⟩ :: snapshotRecords hour (i + 1) ps
  | i, _ :: ps => snapshotRecords hour (i + 1) ps

/-- gbt.py lines 16-35: `for hour in range(24)`; a failed fetch
(network error, non-200, undecodable payload) is `none` and contributes
zero records. -/
def buildRecordsAux : Nat → List (Option (List JVal)) → List RawRec
  | _, [] => []
  | h, os :: rest =>
      (match os with
       | none => []
       | some data => snapshotRecords h 0 data) ++ buildRecordsAux (h + 1) rest

/-- All raw records produced by the fetch loop of `fetch_balloon_data`. -/
def buildRecords (snaps : List (Option (List JVal))) : List RawRec :=
  buildRecordsAux 0 snaps

/-- Number of points in one snapshot passing the code's validity check. -/
def countCodeValid (data : List JVal) : Nat := data.countP codeValidPoint

/-- Number of points in one snapshot that are 3-element numeric triples. -/
def countSpecValid (data : List JVal) : Nat := data.countP specValidTriple

/-- Total code-valid points over a snapshot set (failed fetches count 0). -/
def totalCodeValid (snaps : List (Option (List JVal))) : Nat :=
  (snaps.map (fun os => match os with | none => 0 | some d => countCodeValid d)).sum

/-- Total 3-element numeric triples over a snapshot set. -/
def totalSpecValid (snaps : List (Option (List JVal))) : Nat :=
  (snaps.map (fun os => match os with | none => 0 | some d => countSpecValid d)).sum

/-- One row of the built trajectory table (numeric payload).  Column names
follow the DataFrame columns built in `fetch_balloon_data`; the derived
`vertical_speed` column is `Option ℚ`, `none` standing for pandas `NaN`. -/
structure Row where
  id : ℤ
  time_hour_ago : ℤ
  lat : ℚ
  lon : ℚ
  alt : ℚ
  vertical_speed : Option ℚ
deriving DecidableEq, Repr

/-- The DataFrame returned by `fetch_balloon_data`.  `hasCols` records
whether the frame carries the schema columns: `pd.DataFrame([])` built from
zero records has NO columns at all, and any column access on it raises
`KeyError`. -/
structure DataFrame where
  hasCols : Bool
  rows : List Row
deriving DecidableEq, Repr

/-- Lexicographic (id, time_hour_ago) order used by
`df.sort_values(["id", "time_hour_ago"])`. -/
def RowLe (a b : Row) : Prop :=
  a.id < b.id ∨ (a.id = b.id ∧ a.time_hour_ago ≤ b.time_hour_ago)

instance (a b : Row) : Decidable (RowLe a b) := by
  unfold RowLe; exact inferInstance

/-- Strict lexicographic (id, time_hour_ago) order; rows of a built table
have pairwise distinct (id, time_hour_ago) keys, so the sorted table is
strictly increasing under it. -/
def RowLt (a b : Row) : Prop :=
  a.id < b.id ∨ (a.id = b.id ∧ a.time_hour_ago < b.time_hour_ago)

instance (a b : Row) : Decidable (RowLt a b) := by
  unfold RowLt; exact inferInstance

/-- Single-key order used by `sort_values("time_hour_ago")` in the
predictor and the alert engine. -/
def HourLe (a b : Row) : Prop := a.time_hour_ago ≤ b.time_hour_ago

instance (a b : Row) : Decidable (HourLe a b) := by
  unfold HourLe; exact inferInstance

/-- Stable insertion of a row into a sorted list (the row goes before the
first element it is `le`-below, so equal keys keep their original order,
modelling a stable `sort_values`). -/
def insertRowBy (le : Row → Row → Prop) [∀ a b, Decidable (le a b)]
    (r : Row) : List Row → List Row
  | [] => [r]
  | x :: xs => if le r x then r :: x :: xs else x :: insertRowBy le r xs

/-- Stable insertion sort, modelling `df.sort_values(...)`. -/
def sortRowsBy (le : Row → Row → Prop) [∀ a b, Decidable (le a b)] :
    List Row → List Row
  | [] => []
  | x :: xs => insertRowBy le x (sortRowsBy le xs)

/-- `df.sort_values(["id", "time_hour_ago"])`. -/
def sortRows (l : List Row) : List Row := sortRowsBy RowLe l

/-- First later row with the given id: the "next row of the same group" that
`groupby("id")[...].diff(-1)` subtracts, pandas groups keeping original
row order. -/
def nextSameId (i : ℤ) : List Row → Option Row
  | [] => none
  | r :: rs => if r.id = i then some r else nextSameId i rs

/-- `df["vertical_speed"] = df.groupby("id")["alt"].diff(-1)`
(gbt.py line 43, predictor.py line 11): each row's vertical speed is its
altitude minus the altitude of the next row of the same id, `none` (NaN)
when no later row of that id exists. -/
def computeVSpeed : List Row → List Row
  | [] => []
  | r :: rs =>
      { r with vertical_speed := (nextSameId r.id rs).map (fun r2 => r.alt - r2.alt) }
        :: computeVSpeed rs

/-- Positional `traj["alt"].diff(-1)` (predictor.py line 47): no grouping,
the trajectory is already filtered to a single balloon id. -/
def diffNeg1 : List Row → List Row
  | [] => []
  | [r] => [{ r with vertical_speed := none }]
  | r :: r2 :: rs =>
      { r with vertical_speed := some (r.alt - r2.alt) } :: diffNeg1 (r2 :: rs)

/-- `df.dropna()`: the only column of the model that can hold NaN is
`vertical_speed`, so dropping NaN rows keeps exactly the rows whose
vertical speed is present. -/
def dropnaVS (l : List Row) : List Row := l.filter (fun r => r.vertical_speed.isSome)

/-- Numeric-payload record extraction: the loop of gbt.py lines 23-33
specialised to snapshots all of whose points are valid numeric triples
`(lat, lon, alt)` (the payload shape the downstream numeric pipeline
assumes; `buildRecords` above keeps full JSON generality). -/
def numSnapshotRecords (hour : Nat) : Nat → List (ℚ × ℚ × ℚ) → List Row
  | _, [] => []
  | i, p :: ps =>
      ⟨(i : ℤ), (hour : ℤ), p.1, p.2.1, p.2.2, none⟩ :: numSnapshotRecords hour (i + 1) ps

/-- Hour loop of the numeric record extraction: a failed fetch (`none`)
contributes zero records. -/
def numRecordsAux : Nat → List (Option (List (ℚ × ℚ × ℚ))) → List Row
  | _, [] => []
  | h, none :: rest => numRecordsAux (h + 1) rest
  | h, some data :: rest => numSnapshotRecords h 0 data ++ numRecordsAux (h + 1) rest

/-- `fetch_balloon_data` (gbt.py lines 14-44) on numeric snapshots:
build the records, return the column-less empty frame when no record was
produced, otherwise sort by `(id, time_hour_ago)` and compute the grouped
vertical-speed column. -/
def fetch_balloon_data (snaps : List (Option (List (ℚ × ℚ × ℚ)))) : DataFrame :=
  let recs := numRecordsAux 0 snaps
  if recs.isEmpty then ⟨false, []⟩
  else ⟨true, computeVSpeed (sortRows recs)⟩

/-- The sort-then-recompute maintenance step of the table builder
(gbt.py lines 42-43): sort by `(id, time_hour_ago)` ascending, then
recompute the grouped vertical-speed column. -/
def processTable (t : List Row) : List Row := computeVSpeed (sortRows t)

/-! ## Alert engine (gbt.py `generate_alerts`, lines 207-242) -/

/-- Fixed-point rendering of a rational to two decimals, modelling the
`:.2f` format directive of the alert f-strings. -/
def fmt2 (q : ℚ) : String :=
  let n : ℤ := round (q * 100)
  let sgn := if n < 0 then "-" else ""
  let d := n.natAbs % 100
  sgn ++ toString (n.natAbs / 100) ++ "." ++ (if d < 10 then "0" ++ toString d else toString d)

/-- `f"🚨 Balloon {id} is descending rapidly (v_speed = {vspeed:.2f} km/h)"`. -/
def rapidMsg (bid : ℤ) (v : ℚ) : String :=
  "🚨 Balloon " ++ toString bid ++ " is descending rapidly (v_speed = " ++ fmt2 v ++ " km/h)"

/-- `f"⚠️ Balloon {id} is flying very low (altitude = {alt:.2f} km)"`. -/
def lowAltMsg (bid : ℤ) (a : ℚ) : String :=
  "⚠️ Balloon " ++ toString bid ++ " is flying very low (altitude = " ++ fmt2 a ++ " km)"

/-- `f"⚠️ Balloon {id} hasn\x27t moved in 3+ hours"`. -/
def stationaryMsg (bid : ℤ) : String :=
  "⚠️ Balloon " ++ toString bid ++ " hasn\x27t moved in 3+ hours"

/-- `"✅ All balloons look nominal."`. -/
def nominalMsg : String := "✅ All balloons look nominal."

/-- The distinct balloon ids of a table in ascending order: the iteration
order of `df.groupby("id")` (pandas sorts group keys). -/
def insertIdNoDup (i : ℤ) : List ℤ → List ℤ
  | [] => [i]
  | x :: xs => if i < x then i :: x :: xs else if i = x then x :: xs else x :: insertIdNoDup i xs

/-- Sorted distinct group keys of `df.groupby("id")`. -/
def sortedIds : List Row → List ℤ
  | [] => []
  | r :: rs => insertIdNoDup r.id (sortedIds rs)

/-- The body of the `for _, balloon in grouped` loop of `generate_alerts`
for the group of balloon `bid`: the group is
`df[df["time_hour_ago"] <= 0]` restricted to id `bid` (original order),
then sorted by `time_hour_ago`; skip the balloon if the group is empty or
its first row is not at hour 0; `current` is the first row, `previous`
the rest, and the three threshold rules fire independently. -/
def alertsFor (rows : List Row) (bid : ℤ) : List String :=
  match
    sortRowsBy HourLe
      ((rows.filter (fun r => r.time_hour_ago ≤ 0)).filter (fun r => r.id = bid)) with
  | [] => []
  | current :: older =>
      if current.time_hour_ago ≠ 0 then []
      else
        (match current.vertical_speed with
         | some v => if v < -5 then [rapidMsg current.id v] else []
         | none => []) ++
        (if current.alt < 1 then [lowAltMsg current.id current.alt] else []) ++
        (if 3 ≤ older.length
            ∧ older.countP (fun p => p.lat ≠ current.lat) = 0
            ∧ older.countP (fun p => p.lon ≠ current.lon) = 0
         then [stationaryMsg current.id] else [])

/-- All alert messages collected in balloon-iteration order. -/
def alertMessages (rows : List Row) : List String :=
  (sortedIds rows).flatMap (alertsFor rows)

/-- `generate_alerts` (gbt.py lines 207-242), with the reference hour
hardcoded to 0.  Column access `df["time_hour_ago"]` on the column-less
empty frame raises `KeyError`, modelled by the `Except.error` branch;
otherwise the alert list is joined by newlines, or replaced by the nominal
message when empty. -/
def generate_alerts (d : DataFrame) : Except String String :=
  if d.hasCols then
    let alerts := alertMessages d.rows
    if alerts.isEmpty then Except.ok nominalMsg
    else Except.ok (String.intercalate "\x0a" alerts)
  else Except.error "KeyError: time_hour_ago"

/-! ## Predictor (predictor.py) -/

/-- The 5-feature vector `[time_hour_ago, lat, lon, alt, vertical_speed]`
fed to both regressors. -/
structure Features where
  time_hour_ago : ℚ
  lat : ℚ
  lon : ℚ
  alt : ℚ
  vertical_speed : ℚ
deriving DecidableEq, Repr

/-- A fitted scikit-learn `LinearRegression` over the 5 features: its
coefficients and intercept; `predict` is the affine map. -/
structure LinModel where
  c_hour : ℚ
  c_lat : ℚ
  c_lon : ℚ
  c_alt : ℚ
  c_vs : ℚ
  intercept : ℚ
deriving DecidableEq, Repr

/-- `model.predict([x])[0]` for a fitted linear model. -/
def LinModel.predict (m : LinModel) (x : Features) : ℚ :=
  m.c_hour * x.time_hour_ago + m.c_lat * x.lat + m.c_lon * x.lon
    + m.c_alt * x.alt + m.c_vs * x.vertical_speed + m.intercept

/-- The durable model storage: the two pickle files at `LAT_MODEL_PATH`
and `LON_MODEL_PATH`, each either absent or holding a fitted model. -/
structure ModelStorage where
  latModel : Option LinModel
  lonModel : Option LinModel

/-- Preprocessing of `train_and_save_models` (predictor.py lines 10-12):
sort by `(id, time_hour_ago)`, recompute the grouped vertical speed,
drop rows lacking it. -/
def trainTable (t : List Row) : List Row := dropnaVS (computeVSpeed (sortRows t))

/-- Consecutive pairs `(g.loc[i], g.loc[i+1])` of one balloon group. -/
def consecPairs : List Row → List (Row × Row)
  | a :: b :: rest => (a, b) :: consecPairs (b :: rest)
  | _ => []

/-- One training example from a consecutive pair (predictor.py lines
19-27): the feature vector is read from `g.loc[i]` and the label
`(lat, lon)` from `g.loc[i+1]`. -/
def exampleOf (p : Row × Row) : Features × (ℚ × ℚ) :=
  (⟨(p.1.time_hour_ago : ℚ), p.1.lat, p.1.lon, p.1.alt, p.1.vertical_speed.getD 0⟩,
   (p.2.lat, p.2.lon))

/-- The pooled training set built by `train_and_save_models` (predictor.py
lines 14-27): for each balloon group in `groupby("id")` order, one example
per consecutive pair of rows. -/
def trainingExamples (t : List Row) : List (Features × (ℚ × ℚ)) :=
  let d := trainTable t
  (sortedIds d).flatMap (fun i => consecPairs (d.filter (fun r => r.id = i)) |>.map exampleOf)

/-- The filtered, recency-sorted, vertical-speed-recomputed, NaN-dropped
trajectory of the target balloon (predictor.py lines 46-48). -/
def filteredTraj (t : List Row) (bid : ℤ) : List Row :=
  dropnaVS (diffNeg1 (sortRowsBy HourLe (t.filter (fun r => r.id = bid))))

/-- The autoregressive loop of `predict_trajectory` (predictor.py lines
56-72): at each step the feature vector takes `last["time_hour_ago"] - step`
(with `last`'s hour never mutated), the current lat/lon, and the seed's
altitude and vertical speed; after predicting, lat/lon are replaced by the
predictions. -/
def predLoop (lm om : LinModel) (seed : Row) : Nat → Nat → ℚ → ℚ → List (ℚ × ℚ)
  | 0, _, _, _ => []
  | n + 1, step, la, lo =>
      let x : Features :=
        ⟨(seed.time_hour_ago : ℚ) - (step : ℚ), la, lo, seed.alt, seed.vertical_speed.getD 0⟩
      let pla := lm.predict x
      let plo := om.predict x
      (pla, plo) :: predLoop lm om seed n (step + 1) pla plo

/-- `predict_trajectory` after the models are loaded (predictor.py lines
46-73): `None` when the filtered trajectory is empty, otherwise the
`range(horizon)` rollout seeded from `traj.iloc[0]`.  The horizon is an
integer as in Python; `range(h)` of a non-positive `h` is empty, modelled
by `Int.toNat`. -/
def predict_trajectory (lm om : LinModel) (t : List Row) (bid : ℤ) (horizon : ℤ) :
    Option (List (ℚ × ℚ)) :=
  match filteredTraj t bid with
  | [] => none
  | seed :: _ => some (predLoop lm om seed horizon.toNat 0 seed.lat seed.lon)

/-- `predict_trajectory` including its precondition check (predictor.py
lines 40-44): `os.path.exists` on both model paths, raising
`FileNotFoundError` when either file is absent, then loading both models. -/
def predict_trajectory_checked (st : ModelStorage) (t : List Row) (bid : ℤ)
    (horizon : ℤ) : Except String (Option (List (ℚ × ℚ))) :=
  match st.latModel, st.lonModel with
  | some lm, some om => Except.ok (predict_trajectory lm om t bid horizon)
  | _, _ => Except.error "Models not found. Train them first with train_and_save_models."

/-- Reference sequence for the rollout: state 0 is the seed's (lat, lon);
state `k+1` applies the two models to the feature vector built from state
`k`, the seed's `time_hour_ago` minus `k`, and the seed's altitude and
vertical speed.  `predLoop` is proved to enumerate states `1..H`. -/
def specState (lm om : LinModel) (seed : Row) : Nat → ℚ × ℚ
  | 0 => (seed.lat, seed.lon)
  | k + 1 =>
      let p := specState lm om seed k
      let x : Features :=
        ⟨(seed.time_hour_ago : ℚ) - (k : ℚ), p.1, p.2, seed.alt, seed.vertical_speed.getD 0⟩
      (lm.predict x, om.predict x)

/-! ## Concrete inputs used by the closed evaluations and witnesses -/

/-- One balloon with rows at hours 0, 1, 2 (as a pre-built table). -/
def demoTrain : List Row :=
  [⟨0, 0, 10, 20, 5, none⟩, ⟨0, 1, 11, 21, 6, none⟩, ⟨0, 2, 12, 22, 7, none⟩]

/-- A snapshot set in which no hour yields any valid point. -/
def demoEmptySnaps : List (Option (List (ℚ × ℚ × ℚ))) := [some [], none]

/-- Four hourly snapshots of one balloon that never moves. -/
def demoStatSnaps : List (Option (List (ℚ × ℚ × ℚ))) :=
  [some [(10, 20, 5)], some [(10, 20, 5)], some [(10, 20, 5)], some [(10, 20, 5)]]

/-- Snapshots at hours 0 and 2 with a failed fetch at hour 1. -/
def demoGapSnaps : List (Option (List (ℚ × ℚ × ℚ))) :=
  [some [(1, 2, 3)], none, some [(4, 5, 6)]]

/-- Snapshots at hours 0 and 1. -/
def demoPairSnaps : List (Option (List (ℚ × ℚ × ℚ))) :=
  [some [(1, 2, 3)], some [(4, 5, 6)]]

/-- A snapshot whose single point is a 3-element list of strings. -/
def demoBadSnaps : List (Option (List JVal)) :=
  [some [JVal.arr [JVal.str "a", JVal.str "b", JVal.str "c"]]]

/-- A latitude model reading off `time_hour_ago + 2`. -/
def demoModelLat : LinModel := ⟨1, 0, 0, 0, 0, 2⟩

/-- A longitude model reading off the current longitude. -/
def demoModelLon : LinModel := ⟨0, 0, 1, 0, 0, 0⟩

/-- A table with one balloon at hours 0 and 1. -/
def demoTable : List Row := [⟨0, 0, 1, 2, 3, none⟩, ⟨0, 1, 1, 2, 4, none⟩]

/-- A table whose single reference-hour row descends at -6 units/hour. -/
def demoAlertRows : List Row := [⟨0, 0, 1, 2, 3, some (-6)⟩]

/-- The seed row of `demoTable`'s filtered trajectory. -/
def demoSeed : Row := ⟨0, 0, 1, 2, 3, some (-1)⟩

/-- The sort key of a row: `(id, time_hour_ago)`. -/
def key (r : Row) : ℤ × ℤ := (r.id, r.time_hour_ago)

/-- Lexicographic order on sort keys; `RowLe a b` is definitionally
`KeyLe (key a) (key b)`. -/
def KeyLe (p q : ℤ × ℤ) : Prop := p.1 < q.1 ∨ (p.1 = q.1 ∧ p.2 ≤ q.2)

/-- Two rows with distinct (id, time_hour_ago) keys.  Within one fetch the
records are pairwise `KeyNe`: the id is the index inside one hourly
snapshot, so each (hour, index) pair occurs at most once. -/
def KeyNe (a b : Row) : Prop := a.id ≠ b.id ∨ a.time_hour_ago ≠ b.time_hour_ago

/-! ## Theorems -/

attribute [local semireducible] Rat.sub Rat.add Rat.mul Rat.inv Rat.ofScientific

/-- C1.  On a balloon with rows at hours 0, 1, 2 the single training
example built by `train_and_save_models` takes its feature vector from the
`hours_ago = 0` row (the LATER-in-time sample, vertical speed `5 - 6 = -1`)
and its label from the `hours_ago = 1` row — the opposite pairing of the
one the claim states (features from the larger `hours_ago`, label from the
smaller), so the code predicts the past position from the present one. -/
theorem c1_training_pair_eval :
    trainingExamples demoTrain = [(⟨0, 10, 20, 5, -1⟩, (11, 21))] := by
  decide

/-- C2.  On the explicitly-empty table produced when no hour yields any
valid point (a `pd.DataFrame([])` with no columns), `generate_alerts`
raises `KeyError` at `df[df["time_hour_ago"] == selected_hour]` instead of
returning the nominal-status message. -/
theorem c2_empty_alerts_eval :
    generate_alerts (fetch_balloon_data demoEmptySnaps) =
      Except.error "KeyError: time_hour_ago" := by
  rfl

/-- C6.  On a built table where balloon 0 has its reference-hour row and
three older samples with exactly the same lat/lon, the stationary alert
does NOT fire (the engine returns the nominal message): the grouping
filter `df["time_hour_ago"] <= 0` excludes every older sample, so
`previous` is always empty on hour-indexed data and the
"hasn\x27t moved in 3+ hours" rule can never trigger, contradicting the
claim and the code's own comment calling `previous` "older timesteps". -/
theorem c6_stationary_eval :
    generate_alerts (fetch_balloon_data demoStatSnaps) = Except.ok nominalMsg := by
  rfl

/-- C4, counterexample.  A point that is a 3-element list of strings is NOT
a structurally valid numeric triple, yet the builder keeps it: the record
count is 1 while the number of 3-element numeric triples is 0, refuting the
claimed equality. -/
theorem c4_counterexample :
    (buildRecords demoBadSnaps).length ≠ totalSpecValid demoBadSnaps := by
  decide

/-- The per-snapshot loop produces one record per point passing the code's
`isinstance(point, list) and len(point) == 3` check. -/
theorem snapshotRecords_length (hour : Nat) (data : List JVal) :
    ∀ i, (snapshotRecords hour i data).length = countCodeValid data := by
  induction data with
  | nil => intro i; rfl
  | cons p ps ih =>
      intro i
      match p with
      | .num q =>
          simpa [snapshotRecords, countCodeValid, codeValidPoint, List.countP_cons]
            using ih (i + 1)
      | .str s =>
          simpa [snapshotRecords, countCodeValid, codeValidPoint, List.countP_cons]
            using ih (i + 1)
      | .bool b =>
          simpa [snapshotRecords, countCodeValid, codeValidPoint, List.countP_cons]
            using ih (i + 1)
      | .null =>
          simpa [snapshotRecords, countCodeValid, codeValidPoint, List.countP_cons]
            using ih (i + 1)
      | .arr [] =>
          simpa [snapshotRecords, countCodeValid, codeValidPoint, List.countP_cons]
            using ih (i + 1)
      | .arr [a] =>
          simpa [snapshotRecords, countCodeValid, codeValidPoint, List.countP_cons]
            using ih (i + 1)
      | .arr [a, b] =>
          simpa [snapshotRecords, countCodeValid, codeValidPoint, List.countP_cons]
            using ih (i + 1)
      | .arr [a, b, c] =>
          have := ih (i + 1)
          simp [snapshotRecords, countCodeValid, codeValidPoint, List.countP_cons]
            at this ⊢
          omega
      | .arr (a :: b :: c :: d :: t) =>
          simpa [snapshotRecords, countCodeValid, codeValidPoint, List.countP_cons]
            using ih (i + 1)

/-- The hour loop adds up the per-snapshot record counts. -/
theorem buildRecordsAux_length (snaps : List (Option (List JVal))) :
    ∀ h, (buildRecordsAux h snaps).length = totalCodeValid snaps := by
  induction snaps with
  | nil => intro h; rfl
  | cons os rest ih =>
      intro h
      cases os with
      | none => simpa [buildRecordsAux, totalCodeValid] using ih (h + 1)
      | some data =>
          simp [buildRecordsAux, totalCodeValid, List.length_append,
            snapshotRecords_length]
          have := ih (h + 1)
          simp [totalCodeValid] at this
          omega

/-- C4, amended.  For every snapshot set, the number of records produced by
the Table Builder equals the total number of points that are 3-element
LISTS (element types unchecked) across all fetched hours: a point that is
not a 3-element list contributes no row, while its sibling points in the
same snapshot are kept. -/
theorem c4_row_count (snaps : List (Option (List JVal))) :
    (buildRecords snaps).length = totalCodeValid snaps :=
  buildRecordsAux_length snaps 0

/-- C3, counterexample.  With snapshots at hours 0 and 2 and a failed fetch
at hour 1, the newest row (`hours_ago = 0`) of balloon 0 carries the valid
vertical speed `3 - 6` even though no `hours_ago = 1` row exists for that
id: `diff(-1)` subtracts the NEXT row of the group, not specifically the
`h + 1` row, refuting "gets a valid speed only if a `hours_ago = 1` row
exists". -/
theorem c3_counterexample :
    ¬ (∀ r ∈ (fetch_balloon_data demoGapSnaps).rows,
        r.time_hour_ago = 0 → r.vertical_speed.isSome →
          ∃ r2 ∈ (fetch_balloon_data demoGapSnaps).rows,
            r2.id = r.id ∧ r2.time_hour_ago = 1) := by
  decide

/-- C8.  If either trained-model file is absent from durable storage,
`predict_trajectory` fails by raising
`FileNotFoundError("Models not found. Train them first with
train_and_save_models.")` before touching the table, for every table,
balloon id, and horizon. -/
theorem c8_models_missing (st : ModelStorage) (t : List Row) (bid horizon : ℤ)
    (h : st.latModel = none ∨ st.lonModel = none) :
    predict_trajectory_checked st t bid horizon =
      Except.error "Models not found. Train them first with train_and_save_models." := by
  cases hl : st.latModel with
  | none => simp [predict_trajectory_checked, hl]
  | some lm =>
      cases ho : st.lonModel with
      | none => simp [predict_trajectory_checked, hl, ho]
      | some om => simp [hl, ho] at h

/-- Witness for C8 at a storage holding only the longitude model. -/
theorem c8_models_missing_witness :
    (ModelStorage.mk none (some demoModelLon)).latModel = none ∧
      predict_trajectory_checked ⟨none, some demoModelLon⟩ demoTable 0 24 =
        Except.error "Models not found. Train them first with train_and_save_models." :=
  ⟨rfl, c8_models_missing ⟨none, some demoModelLon⟩ demoTable 0 24 (Or.inl rfl)⟩

/-- C10.  With both model files present: a non-positive horizon returns the
empty prediction list (`range(horizon)` is empty), not `None`, whenever the
filtered trajectory of the target balloon is non-empty; and `None` is
returned exactly when that filtered trajectory is empty. -/
theorem c10_zero_horizon (lm om : LinModel) (t : List Row) (bid horizon : ℤ) :
    (horizon ≤ 0 → filteredTraj t bid ≠ [] →
        predict_trajectory_checked ⟨some lm, some om⟩ t bid horizon =
          Except.ok (some []))
    ∧ (predict_trajectory_checked ⟨some lm, some om⟩ t bid horizon = Except.ok none
        ↔ filteredTraj t bid = []) := by
  cases hft : filteredTraj t bid with
  | nil =>
      refine ⟨fun _ hne => absurd rfl hne, ?_⟩
      simp [predict_trajectory_checked, predict_trajectory, hft]
  | cons seed rest =>
      constructor
      · intro hh _
        have hz : horizon.toNat = 0 := Int.toNat_of_nonpos hh
        simp [predict_trajectory_checked, predict_trajectory, hft, hz, predLoop]
      · simp [predict_trajectory_checked, predict_trajectory, hft]

/-- Witness for C10 at horizon 0 on a balloon with a valid seed row. -/
theorem c10_zero_horizon_witness :
    ((0 : ℤ) ≤ 0 ∧ filteredTraj demoTable 0 ≠ []) ∧
      predict_trajectory_checked ⟨some demoModelLat, some demoModelLon⟩ demoTable 0 0 =
        Except.ok (some []) :=
  ⟨⟨by decide, by decide⟩,
   (c10_zero_horizon demoModelLat demoModelLon demoTable 0 0).1 (by decide) (by decide)⟩

/-- The rollout loop enumerates the reference states `k+1 .. k+n` when
started at step `k` from the lat/lon of state `k`. -/
theorem predLoop_eq (lm om : LinModel) (seed : Row) :
    ∀ n k, predLoop lm om seed n k (specState lm om seed k).1 (specState lm om seed k).2
      = (List.range n).map (fun j => specState lm om seed (k + j + 1)) := by
  intro n
  induction n with
  | zero => intro k; rfl
  | succ n ih =>
      intro k
      have h1 : predLoop lm om seed (n + 1) k
            (specState lm om seed k).1 (specState lm om seed k).2
          = specState lm om seed (k + 1)
              :: predLoop lm om seed n (k + 1)
                  (specState lm om seed (k + 1)).1 (specState lm om seed (k + 1)).2 := rfl
      rw [h1, ih (k + 1), List.range_succ_eq_map, List.map_cons, List.map_map]
      congr 1
      exact List.map_congr_left (fun j _ => by
        simp only [Function.comp_apply]
        congr 1
        omega)

/-- C5.  For every pair of models, table, target id with a non-empty
filtered trajectory, and horizon `H`, `predict_trajectory` returns exactly
`H` (lat, lon) pairs, and the pair at index `k` (time `+(k+1)` hours) is
`specState (k+1)`: the prediction computed from the feature vector holding
the lat/lon predicted at step `k-1` (the seed's lat/lon at `k = 0`), the
seed's time-offset minus `k`, and the seed's altitude and vertical speed,
held constant across the whole horizon. -/
theorem c5_predict_rollout (lm om : LinModel) (t : List Row) (bid : ℤ) (H : Nat)
    (seed : Row) (rest : List Row) (ht : filteredTraj t bid = seed :: rest) :
    ∃ l, predict_trajectory lm om t bid (H : ℤ) = some l ∧ l.length = H ∧
      ∀ k < H, l[k]? = some (specState lm om seed (k + 1)) := by
  refine ⟨(List.range H).map (fun j => specState lm om seed (j + 1)), ?_, ?_, ?_⟩
  · unfold predict_trajectory
    rw [ht]
    show some (predLoop lm om seed ((H : ℤ)).toNat 0 seed.lat seed.lon) = _
    rw [show ((H : ℤ)).toNat = H from Int.toNat_natCast H,
      show seed.lat = (specState lm om seed 0).1 from rfl,
      show seed.lon = (specState lm om seed 0).2 from rfl, predLoop_eq]
    simp
  · simp
  · intro k hk
    simp [List.getElem?_map, List.getElem?_range, hk]

/-- Witness for C5 on `demoTable` with horizon 3. -/
theorem c5_predict_rollout_witness :
    filteredTraj demoTable 0 = demoSeed :: [] ∧
      ∃ l, predict_trajectory demoModelLat demoModelLon demoTable 0 ((3 : Nat) : ℤ)
            = some l ∧ l.length = 3 ∧
          ∀ k < 3, l[k]? = some (specState demoModelLat demoModelLon demoSeed (k + 1)) :=
  ⟨by decide,
   c5_predict_rollout demoModelLat demoModelLon demoTable 0 3 demoSeed [] (by decide)⟩

/-- A rapid-descent message never coincides with a low-altitude message:
their first characters already differ. -/
theorem rapid_ne_low (i j : ℤ) (v a : ℚ) : rapidMsg i v ≠ lowAltMsg j a := by
  intro h
  have h2 := congrArg String.data h
  simp only [rapidMsg, lowAltMsg, String.data_append] at h2
  simp only [List.cons_append] at h2
  injection h2 with hc _
  exact absurd hc (by decide)

/-- C7.  For a balloon whose only data at the reference hour (and below) is
the single row `r` with `hours_ago = 0`, the rapid-descent alert fires if
and only if `r`'s vertical speed `v` satisfies `v < -5` (strictly, so at
exactly `-5` it does not fire), and the emitted message contains the speed
rendered to two decimals. -/
theorem c7_rapid_descent (rows : List Row) (bid : ℤ) (r : Row) (v : ℚ)
    (hfil : (rows.filter (fun x => x.time_hour_ago ≤ 0)).filter (fun x => x.id = bid)
      = [r])
    (hr0 : r.time_hour_ago = 0)
    (hvs : r.vertical_speed = some v) :
    (rapidMsg bid v ∈ alertsFor rows bid ↔ v < -5)
    ∧ ∃ pre post, rapidMsg bid v = pre ++ fmt2 v ++ post := by
  have hid : r.id = bid := by
    have hmem : r ∈ (rows.filter (fun x => x.time_hour_ago ≤ 0)).filter
        (fun x => x.id = bid) := by
      rw [hfil]; exact List.mem_singleton_self r
    exact of_decide_eq_true (List.mem_filter.mp hmem).2
  constructor
  · constructor
    · intro hm
      by_cases hv : v < -5
      · exact hv
      · exfalso
        unfold alertsFor at hm
        rw [hfil] at hm
        simp only [sortRowsBy, insertRowBy] at hm
        simp [hr0, hvs, hv] at hm
        by_cases hal : r.alt < 1
        · simp [hal] at hm
          exact rapid_ne_low bid r.id v r.alt hm
        · simp [hal] at hm
    · intro hv
      unfold alertsFor
      rw [hfil]
      simp only [sortRowsBy, insertRowBy]
      simp [hr0, hvs, hv, hid]
  · exact ⟨"🚨 Balloon " ++ toString bid ++ " is descending rapidly (v_speed = ",
      " km/h)", rfl⟩

/-- Witness for C7 on a balloon descending at -6 units/hour. -/
theorem c7_rapid_descent_witness :
    ((demoAlertRows.filter (fun x => x.time_hour_ago ≤ 0)).filter (fun x => x.id = 0)
        = [⟨0, 0, 1, 2, 3, some (-6)⟩]
      ∧ (⟨0, 0, 1, 2, 3, some (-6)⟩ : Row).time_hour_ago = 0
      ∧ (⟨0, 0, 1, 2, 3, some (-6)⟩ : Row).vertical_speed = some (-6))
    ∧ rapidMsg 0 (-6) ∈ alertsFor demoAlertRows 0 :=
  ⟨⟨by decide, rfl, rfl⟩,
   (c7_rapid_descent demoAlertRows 0 ⟨0, 0, 1, 2, 3, some (-6)⟩ (-6)
      (by decide) rfl rfl).1.mpr (by decide)⟩

/-- The (id, hours) lexicographic order is total. -/
theorem rowLe_total (a b : Row) : RowLe a b ∨ RowLe b a := by
  unfold RowLe; omega

/-- The (id, hours) lexicographic order is transitive. -/
theorem rowLe_trans {a b c : Row} : RowLe a b → RowLe b c → RowLe a c := by
  unfold RowLe; omega

/-- Inserting a row permutes consing it. -/
theorem insertRowBy_perm (le : Row → Row → Prop) [∀ a b, Decidable (le a b)]
    (r : Row) : ∀ l, (insertRowBy le r l).Perm (r :: l) := by
  intro l
  induction l with
  | nil => exact List.Perm.refl _
  | cons x xs ih =>
      rw [insertRowBy]
      by_cases h : le r x
      · rw [if_pos h]
      · rw [if_neg h]
        exact (List.Perm.cons x ih).trans (List.Perm.swap r x xs)

/-- The stable insertion sort permutes its input. -/
theorem sortRowsBy_perm (le : Row → Row → Prop) [∀ a b, Decidable (le a b)] :
    ∀ l, (sortRowsBy le l).Perm l := by
  intro l
  induction l with
  | nil => exact List.Perm.refl _
  | cons x xs ih =>
      rw [sortRowsBy]
      exact (insertRowBy_perm le x _).trans (List.Perm.cons x ih)

/-- Insertion preserves sortedness for a transitive total order. -/
theorem insertRowBy_pairwise (le : Row → Row → Prop) [∀ a b, Decidable (le a b)]
    (htr : ∀ {a b c}, le a b → le b c → le a c)
    (hto : ∀ a b, le a b ∨ le b a) (r : Row) :
    ∀ l, List.Pairwise le l → List.Pairwise le (insertRowBy le r l) := by
  intro l
  induction l with
  | nil => intro _; exact List.pairwise_singleton le r
  | cons x xs ih =>
      intro hp
      rw [insertRowBy]
      by_cases h : le r x
      · rw [if_pos h]
        refine List.Pairwise.cons ?_ hp
        intro y hy
        rcases List.mem_cons.mp hy with rfl | hy'
        · exact h
        · exact htr h ((List.pairwise_cons.mp hp).1 y hy')
      · rw [if_neg h]
        refine List.Pairwise.cons ?_ (ih (List.Pairwise.of_cons hp))
        intro y hy
        have hy2 : y ∈ r :: xs := (insertRowBy_perm le r xs).mem_iff.mp hy
        rcases List.mem_cons.mp hy2 with rfl | hy'
        · rcases hto x y with hxy | hyx
          · exact hxy
          · exact absurd hyx h
        · exact (List.pairwise_cons.mp hp).1 y hy'

/-- The insertion sort sorts, for a transitive total order. -/
theorem sortRowsBy_pairwise (le : Row → Row → Prop) [∀ a b, Decidable (le a b)]
    (htr : ∀ {a b c}, le a b → le b c → le a c)
    (hto : ∀ a b, le a b ∨ le b a) :
    ∀ l, List.Pairwise le (sortRowsBy le l) := by
  intro l
  induction l with
  | nil => exact List.Pairwise.nil
  | cons x xs ih =>
      rw [sortRowsBy]
      exact insertRowBy_pairwise le htr hto x _ ih

/-- Sorting an already-sorted list is the identity (the model of pandas
re-sorting a sorted frame). -/
theorem sortRowsBy_eq_self (le : Row → Row → Prop) [∀ a b, Decidable (le a b)] :
    ∀ l, List.Pairwise le l → sortRowsBy le l = l := by
  intro l
  induction l with
  | nil => intro _; rfl
  | cons x xs ih =>
      intro hp
      rw [sortRowsBy, ih (List.Pairwise.of_cons hp)]
      cases xs with
      | nil => rfl
      | cons y ys =>
          rw [insertRowBy, if_pos ((List.pairwise_cons.mp hp).1 y (List.mem_cons_self y ys))]

/-- Recomputing the vertical-speed column leaves the sort keys unchanged. -/
theorem computeVSpeed_map_key : ∀ l, (computeVSpeed l).map key = l.map key := by
  intro l
  induction l with
  | nil => rfl
  | cons x xs ih => simp [computeVSpeed, key, ih]

/-- Recomputing the vertical-speed column preserves sortedness. -/
theorem computeVSpeed_pairwise_rowLe (l : List Row) (h : List.Pairwise RowLe l) :
    List.Pairwise RowLe (computeVSpeed l) := by
  have h1 : List.Pairwise KeyLe (l.map key) :=
    List.pairwise_map.mpr (h.imp (fun hk => hk))
  rw [← computeVSpeed_map_key] at h1
  exact (List.pairwise_map.mp h1).imp (fun hk => hk)

/-- The id and altitude of the next same-id row are unchanged by a prior
vertical-speed recomputation. -/
theorem nextSameId_alt_proj : ∀ (l : List Row) (i : ℤ),
    (nextSameId i (computeVSpeed l)).map (fun r => (r.id, r.alt))
      = (nextSameId i l).map (fun r => (r.id, r.alt)) := by
  intro l
  induction l with
  | nil => intro i; rfl
  | cons x xs ih =>
      intro i
      by_cases h : x.id = i
      · simp [computeVSpeed, nextSameId, h]
      · simp [computeVSpeed, nextSameId, h, ih i]

/-- Recomputing the vertical-speed column twice equals recomputing once:
the recomputation reads only ids and altitudes, which it never changes. -/
theorem computeVSpeed_idem : ∀ l, computeVSpeed (computeVSpeed l) = computeVSpeed l := by
  intro l
  induction l with
  | nil => rfl
  | cons x xs ih =>
      have hp := nextSameId_alt_proj xs x.id
      simp only [computeVSpeed, ih]
      cases h1 : nextSameId x.id (computeVSpeed xs) with
      | none =>
          cases h2 : nextSameId x.id xs with
          | none => simp
          | some z => rw [h1, h2] at hp; simp at hp
      | some z =>
          cases h2 : nextSameId x.id xs with
          | none => rw [h1, h2] at hp; simp at hp
          | some w =>
              rw [h1, h2] at hp
              simp at hp
              simp [hp.2]

/-- `nextSameId` returns a member of the list with the requested id. -/
theorem nextSameId_mem (i : ℤ) :
    ∀ (l : List Row) (z : Row), nextSameId i l = some z → z ∈ l ∧ z.id = i := by
  intro l
  induction l with
  | nil => intro z h; simp [nextSameId] at h
  | cons x xs ih =>
      intro z h
      rw [nextSameId] at h
      by_cases hx : x.id = i
      · rw [if_pos hx] at h
        injection h with h'
        subst h'
        exact ⟨List.mem_cons_self x xs, hx⟩
      · rw [if_neg hx] at h
        obtain ⟨hm, hd⟩ := ih z h
        exact ⟨List.mem_cons_of_mem x hm, hd⟩

/-- `nextSameId` finds something whenever a row with the id is present. -/
theorem nextSameId_isSome_of_mem (i : ℤ) :
    ∀ (l : List Row) (y : Row), y ∈ l → y.id = i → (nextSameId i l).isSome := by
  intro l
  induction l with
  | nil => intro y hy; simp at hy
  | cons x xs ih =>
      intro y hy hid
      rw [nextSameId]
      by_cases hx : x.id = i
      · rw [if_pos hx]; rfl
      · rw [if_neg hx]
        rcases List.mem_cons.mp hy with rfl | hy'
        · exact absurd hid hx
        · exact ih y hy' hid

/-- On a strictly sorted list, the first row found with a given id has the
smallest `time_hour_ago` among rows of that id. -/
theorem nextSameId_min (i : ℤ) :
    ∀ (l : List Row), List.Pairwise RowLt l → ∀ y ∈ l, y.id = i →
      ∃ z, nextSameId i l = some z ∧ z.time_hour_ago ≤ y.time_hour_ago := by
  intro l
  induction l with
  | nil => intro _ y hy; simp at hy
  | cons x xs ih =>
      intro hp y hy hid
      rw [nextSameId]
      by_cases hx : x.id = i
      · refine ⟨x, by rw [if_pos hx], ?_⟩
        rcases List.mem_cons.mp hy with rfl | hy'
        · exact le_refl _
        · have hlt := (List.pairwise_cons.mp hp).1 y hy'
          unfold RowLt at hlt
          omega
      · rw [if_neg hx]
        rcases List.mem_cons.mp hy with rfl | hy'
        · exact absurd hid hx
        · exact ih (List.Pairwise.of_cons hp) y hy' hid

/-- Rows of the recomputed table project (id, hours, alt) onto input rows. -/
theorem mem_computeVSpeed_imp :
    ∀ (l : List Row) (x : Row), x ∈ computeVSpeed l →
      ∃ y ∈ l, x.id = y.id ∧ x.time_hour_ago = y.time_hour_ago ∧ x.alt = y.alt := by
  intro l
  induction l with
  | nil => intro x hx; simp [computeVSpeed] at hx
  | cons a rs ih =>
      intro x hx
      rw [computeVSpeed] at hx
      rcases List.mem_cons.mp hx with rfl | hx'
      · exact ⟨a, List.mem_cons_self a rs, rfl, rfl, rfl⟩
      · obtain ⟨y, hym, h1, h2, h3⟩ := ih x hx'
        exact ⟨y, List.mem_cons_of_mem a hym, h1, h2, h3⟩

/-- Every input row has a recomputed image with the same (id, hours, alt). -/
theorem mem_imp_computeVSpeed :
    ∀ (l : List Row) (y : Row), y ∈ l →
      ∃ x ∈ computeVSpeed l, x.id = y.id ∧ x.time_hour_ago = y.time_hour_ago ∧ x.alt = y.alt := by
  intro l
  induction l with
  | nil => intro y hy; simp at hy
  | cons a rs ih =>
      intro y hy
      rw [computeVSpeed]
      rcases List.mem_cons.mp hy with rfl | hy'
      · exact ⟨_, List.mem_cons_self _ _, rfl, rfl, rfl⟩
      · obtain ⟨x, hxm, h1, h2, h3⟩ := ih y hy'
        exact ⟨x, List.mem_cons_of_mem _ hxm, h1, h2, h3⟩

/-- In a strictly sorted list, (id, time_hour_ago) keys identify rows. -/
theorem eq_of_same_key {l : List Row} (hp : List.Pairwise RowLt l) {z y : Row}
    (hz : z ∈ l) (hy : y ∈ l) (hid : z.id = y.id)
    (hh : z.time_hour_ago = y.time_hour_ago) : z = y := by
  by_contra hne
  have hsym : Symmetric (fun a b : Row => RowLt a b ∨ RowLt b a) :=
    fun a b h => h.symm
  have hps : List.Pairwise (fun a b => RowLt a b ∨ RowLt b a) l := hp.imp Or.inl
  have hor := hps.forall hsym hz hy hne
  unfold RowLt at hor
  omega

/-- Grouped-diff characterization, part 1: on a strictly sorted table a
recomputed row has a present vertical speed exactly when a strictly older
row of the same id exists. -/
theorem vspeed_isSome_iff :
    ∀ (l : List Row), List.Pairwise RowLt l → ∀ r ∈ computeVSpeed l,
      (r.vertical_speed.isSome ↔
        ∃ r2 ∈ computeVSpeed l, r2.id = r.id ∧ r.time_hour_ago < r2.time_hour_ago) := by
  intro l
  induction l with
  | nil => intro _ r hr; simp [computeVSpeed] at hr
  | cons a rs ih =>
      intro hp r hr
      rw [computeVSpeed] at hr ⊢
      rcases List.mem_cons.mp hr with rfl | hr'
      · constructor
        · intro hs
          have hvs : ((nextSameId a.id rs).map (fun r2 => a.alt - r2.alt)).isSome := hs
          cases ho : nextSameId a.id rs with
          | none => rw [ho] at hvs; simp at hvs
          | some z =>
              obtain ⟨hzmem, hzid⟩ := nextSameId_mem a.id rs z ho
              obtain ⟨x, hxmem, hxid, hxh, _⟩ := mem_imp_computeVSpeed rs z hzmem
              refine ⟨x, List.mem_cons_of_mem _ hxmem, ?_, ?_⟩
              · show x.id = a.id
                rw [hxid, hzid]
              · show a.time_hour_ago < x.time_hour_ago
                have hlt := (List.pairwise_cons.mp hp).1 z hzmem
                unfold RowLt at hlt
                omega
        · rintro ⟨r2, hr2, hid2, hh2⟩
          rcases List.mem_cons.mp hr2 with heq | hr2'
          · rw [heq] at hh2
            exact absurd hh2 (lt_irrefl _)
          · obtain ⟨y, hymem, hyid, hyh, _⟩ := mem_computeVSpeed_imp rs r2 hr2'
            have hyi : y.id = a.id := by rw [← hyid]; exact hid2
            have hsome := nextSameId_isSome_of_mem a.id rs y hymem hyi
            show ((nextSameId a.id rs).map (fun r2 => a.alt - r2.alt)).isSome
            cases ho : nextSameId a.id rs with
            | none => rw [ho] at hsome; simp at hsome
            | some z => simp
      · have hiff := ih (List.Pairwise.of_cons hp) r hr'
        constructor
        · intro hs
          obtain ⟨r2, hr2, hid2, hh2⟩ := hiff.mp hs
          exact ⟨r2, List.mem_cons_of_mem _ hr2, hid2, hh2⟩
        · rintro ⟨r2, hr2, hid2, hh2⟩
          rcases List.mem_cons.mp hr2 with heq | hr2'
          · exfalso
            obtain ⟨y, hymem, hyid, hyh, _⟩ := mem_computeVSpeed_imp rs r hr'
            have hlt := (List.pairwise_cons.mp hp).1 y hymem
            unfold RowLt at hlt
            have hia : r2.id = a.id := by rw [heq]
            have hha : r.time_hour_ago < a.time_hour_ago := by rw [heq] at hh2; exact hh2
            omega
          · exact hiff.mpr ⟨r2, hr2', hid2, hh2⟩

/-- Grouped-diff characterization, part 2: on a strictly sorted table, a
recomputed row whose id also has a row exactly one hour older carries the
finite difference of the two altitudes. -/
theorem vspeed_succ :
    ∀ (l : List Row), List.Pairwise RowLt l → ∀ r ∈ computeVSpeed l,
      ∀ r2 ∈ computeVSpeed l, r2.id = r.id →
        r2.time_hour_ago = r.time_hour_ago + 1 →
          r.vertical_speed = some (r.alt - r2.alt) := by
  intro l
  induction l with
  | nil => intro _ r hr; simp [computeVSpeed] at hr
  | cons a rs ih =>
      intro hp r hr r2 hr2 hid hsucc
      rw [computeVSpeed] at hr hr2
      rcases List.mem_cons.mp hr with rfl | hr'
      · rcases List.mem_cons.mp hr2 with heq | hr2'
        · exfalso
          rw [heq] at hsucc
          have : a.time_hour_ago = a.time_hour_ago + 1 := hsucc
          omega
        · obtain ⟨y, hymem, hyid, hyh, hyalt⟩ := mem_computeVSpeed_imp rs r2 hr2'
          have hyi : y.id = a.id := by rw [← hyid]; exact hid
          have hyh2 : y.time_hour_ago = a.time_hour_ago + 1 := by
            rw [← hyh]; exact hsucc
          obtain ⟨z, hz, hzle⟩ :=
            nextSameId_min a.id rs (List.Pairwise.of_cons hp) y hymem hyi
          obtain ⟨hzmem, hzid⟩ := nextSameId_mem a.id rs z hz
          have hzlt := (List.pairwise_cons.mp hp).1 z hzmem
          unfold RowLt at hzlt
          have hzh : z.time_hour_ago = y.time_hour_ago := by omega
          have hzy : z = y :=
            eq_of_same_key (List.Pairwise.of_cons hp) hzmem hymem
              (by rw [hzid, hyi]) hzh
          show (nextSameId a.id rs).map (fun w => a.alt - w.alt)
            = some (a.alt - r2.alt)
          rw [hz]
          show some (a.alt - z.alt) = some (a.alt - r2.alt)
          rw [hzy, hyalt]
      · rcases List.mem_cons.mp hr2 with heq | hr2'
        · exfalso
          obtain ⟨y, hymem, hyid, hyh, _⟩ := mem_computeVSpeed_imp rs r hr'
          have hlt := (List.pairwise_cons.mp hp).1 y hymem
          unfold RowLt at hlt
          have h1 : r2.id = a.id := by rw [heq]
          have h2 : r2.time_hour_ago = a.time_hour_ago := by rw [heq]
          omega
        · exact ih (List.Pairwise.of_cons hp) r hr' r2 hr2' hid hsucc

/-- Every record of one numeric snapshot carries that snapshot's hour and
an id at least the running index. -/
theorem numSnapshotRecords_mem (hour : Nat) :
    ∀ (ps : List (ℚ × ℚ × ℚ)) (i : Nat) (r : Row),
      r ∈ numSnapshotRecords hour i ps →
        r.time_hour_ago = (hour : ℤ) ∧ (i : ℤ) ≤ r.id := by
  intro ps
  induction ps with
  | nil => intro i r h; simp [numSnapshotRecords] at h
  | cons p ps ih =>
      intro i r h
      rw [numSnapshotRecords] at h
      rcases List.mem_cons.mp h with rfl | h'
      · exact ⟨rfl, le_refl _⟩
      · obtain ⟨h1, h2⟩ := ih (i + 1) r h'
        refine ⟨h1, ?_⟩
        have : ((i : ℤ) + 1) ≤ r.id := by exact_mod_cast h2
        omega

/-- Within one numeric snapshot the record ids strictly increase. -/
theorem numSnapshotRecords_pairwise (hour : Nat) :
    ∀ (ps : List (ℚ × ℚ × ℚ)) (i : Nat),
      List.Pairwise (fun a b : Row => a.id < b.id) (numSnapshotRecords hour i ps) := by
  intro ps
  induction ps with
  | nil => intro i; exact List.Pairwise.nil
  | cons p ps ih =>
      intro i
      rw [numSnapshotRecords]
      refine List.Pairwise.cons ?_ (ih (i + 1))
      intro b hb
      have := (numSnapshotRecords_mem hour ps (i + 1) b hb).2
      show (i : ℤ) < b.id
      have h1 : ((i : ℤ) + 1) ≤ b.id := by exact_mod_cast this
      omega

/-- Every record produced from hour `h` onwards has `time_hour_ago ≥ h`. -/
theorem numRecordsAux_mem :
    ∀ (snaps : List (Option (List (ℚ × ℚ × ℚ)))) (h : Nat) (r : Row),
      r ∈ numRecordsAux h snaps → (h : ℤ) ≤ r.time_hour_ago := by
  intro snaps
  induction snaps with
  | nil => intro h r hr; simp [numRecordsAux] at hr
  | cons os rest ih =>
      intro h r hr
      cases os with
      | none =>
          rw [numRecordsAux] at hr
          have := ih (h + 1) r hr
          have h2 : ((h : ℤ) + 1) ≤ r.time_hour_ago := by exact_mod_cast this
          omega
      | some data =>
          rw [numRecordsAux] at hr
          rcases List.mem_append.mp hr with hl | hrst
          · have := (numSnapshotRecords_mem h data 0 r hl).1
            omega
          · have := ih (h + 1) r hrst
            have h2 : ((h : ℤ) + 1) ≤ r.time_hour_ago := by exact_mod_cast this
            omega

/-- The records of one fetch have pairwise distinct (id, hours) keys. -/
theorem numRecordsAux_pairwise_keyNe :
    ∀ (snaps : List (Option (List (ℚ × ℚ × ℚ)))) (h : Nat),
      List.Pairwise KeyNe (numRecordsAux h snaps) := by
  intro snaps
  induction snaps with
  | nil => intro h; exact List.Pairwise.nil
  | cons os rest ih =>
      intro h
      cases os with
      | none => rw [numRecordsAux]; exact ih (h + 1)
      | some data =>
          rw [numRecordsAux]
          refine List.pairwise_append.mpr ⟨?_, ih (h + 1), ?_⟩
          · exact (numSnapshotRecords_pairwise h data 0).imp
              (fun hlt => Or.inl (ne_of_lt hlt))
          · intro a ha b hb
            have hb2 := numRecordsAux_mem rest (h + 1) b hb
            have ha2 := (numSnapshotRecords_mem h data 0 a ha).1
            right
            have h3 : ((h : ℤ) + 1) ≤ b.time_hour_ago := by exact_mod_cast hb2
            omega

/-- The sorted record table of one numeric fetch is STRICTLY sorted. -/
theorem sortRows_numRecords_strict (snaps : List (Option (List (ℚ × ℚ × ℚ)))) :
    List.Pairwise RowLt (sortRows (numRecordsAux 0 snaps)) := by
  have hle : List.Pairwise RowLe (sortRows (numRecordsAux 0 snaps)) :=
    sortRowsBy_pairwise RowLe (fun h h2 => rowLe_trans h h2) rowLe_total _
  have hperm : (sortRows (numRecordsAux 0 snaps)).Perm (numRecordsAux 0 snaps) :=
    sortRowsBy_perm RowLe _
  have hsym : Symmetric KeyNe := by
    intro a b hab
    unfold KeyNe at hab ⊢
    omega
  have hne : List.Pairwise KeyNe (sortRows (numRecordsAux 0 snaps)) :=
    (hperm.pairwise_iff (fun h => hsym h)).mpr (numRecordsAux_pairwise_keyNe snaps 0)
  refine (hle.and hne).imp ?_
  intro a b hab
  obtain ⟨h1, h2⟩ := hab
  unfold RowLe at h1
  unfold KeyNe at h2
  unfold RowLt
  omega

/-- C3, amended.  In every built table: (1) a row at `hours_ago = h` whose
id also has a row at `hours_ago = h + 1` carries vertical speed
`alt(h) - alt(h+1)`; and (2) a row carries a present vertical speed exactly
when some row of the same id with strictly larger `hours_ago` exists — so
the speed is missing at the oldest sample of each id, and the newest row
(`hours_ago = 0`) gets a valid speed iff ANY older same-id row exists, not
only when an `hours_ago = 1` row exists. -/
theorem c3_vertical_speed (snaps : List (Option (List (ℚ × ℚ × ℚ)))) :
    ∀ r ∈ (fetch_balloon_data snaps).rows,
      (∀ r2 ∈ (fetch_balloon_data snaps).rows,
        r2.id = r.id → r2.time_hour_ago = r.time_hour_ago + 1 →
          r.vertical_speed = some (r.alt - r2.alt))
      ∧ (r.vertical_speed.isSome ↔
          ∃ r2 ∈ (fetch_balloon_data snaps).rows,
            r2.id = r.id ∧ r.time_hour_ago < r2.time_hour_ago) := by
  intro r hr
  unfold fetch_balloon_data at hr ⊢
  by_cases he : (numRecordsAux 0 snaps).isEmpty
  · rw [if_pos he] at hr
    simp at hr
  · rw [if_neg he] at hr ⊢
    have hstrict := sortRows_numRecords_strict snaps
    constructor
    · intro r2 hr2 hid hsucc
      exact vspeed_succ (sortRows (numRecordsAux 0 snaps)) hstrict r hr r2 hr2 hid hsucc
    · exact vspeed_isSome_iff (sortRows (numRecordsAux 0 snaps)) hstrict r hr

/-- Witness for C3 on snapshots at hours 0 and 1: the hour-0 row carries
speed `3 - 6`. -/
theorem c3_vertical_speed_witness :
    ((⟨0, 0, 1, 2, 3, some (-3)⟩ : Row) ∈ (fetch_balloon_data demoPairSnaps).rows
        ∧ (⟨0, 1, 4, 5, 6, none⟩ : Row) ∈ (fetch_balloon_data demoPairSnaps).rows)
      ∧ (⟨0, 0, 1, 2, 3, some (-3)⟩ : Row).vertical_speed = some (3 - 6) :=
  ⟨⟨by decide, by decide⟩,
   (c3_vertical_speed demoPairSnaps ⟨0, 0, 1, 2, 3, some (-3)⟩ (by decide)).1
      ⟨0, 1, 4, 5, 6, none⟩ (by decide) (by decide) (by decide)⟩

/-- C9.  The sort-then-recompute step of the table builder is idempotent:
applied to a table that is already sorted by `(id, time_hour_ago)` with its
vertical speed already computed that way — that is, to any output of the
step itself — it returns the identical table, same order and same
vertical-speed values. -/
theorem c9_idempotent (t : List Row) :
    processTable (processTable t) = processTable t := by
  unfold processTable sortRows
  have h1 : List.Pairwise RowLe (sortRowsBy RowLe t) :=
    sortRowsBy_pairwise RowLe (fun h h2 => rowLe_trans h h2) rowLe_total t
  have h2 : List.Pairwise RowLe (computeVSpeed (sortRowsBy RowLe t)) :=
    computeVSpeed_pairwise_rowLe _ h1
  rw [sortRowsBy_eq_self RowLe _ h2, computeVSpeed_idem]

end BT
